import Mathlib

/-!
# Verification of the nutrition-crawler acquisition loop (`src/main.py`)

A shallow embedding of the single source file `src/main.py` of the
`nutrition_agent` repository.  The two external collaborators (the web
search provider and the browser/LLM extraction engine) are modelled as
explicit function parameters, exactly as the spec treats them: black-box
functions supplied per run.  JSON payloads are modelled by the inductive
type `JVal` (JSON numbers are modelled as integers; no claim depends on
float arithmetic).  Python dicts are modelled as ordered association lists,
matching Python's insertion-order semantics for `dict.items()` and for
`d[k] = v` (replace in place if the key exists, append otherwise).

Besides its outcome, each modelled function returns the list of URLs it
passed to the extraction collaborator, in order: this is ghost
instrumentation used only to state the theorems (the Python code does not
build such a list, but the sequence of `crawler.arun` calls it performs is
exactly this list).
-/

/-- A JSON value as produced by `json.loads` in `src/main.py` (numbers are
modelled as integers).  `null` is Python `None`. -/
inductive JVal where
  | null
  | bool (b : Bool)
  | num (n : Int)
  | str (s : String)
  | arr (items : List JVal)
  | obj (fields : List (String × JVal))

/-- A parsed Python dict: an ordered association list, as `dict` iterates. -/
abbrev JsonObj := List (String × JVal)

/-- `d[k] = v` on a Python dict: replace the value of the first entry whose
key is `k`, keeping its position; append `(k, v)` when no entry has key `k`. -/
def setKey (fields : JsonObj) (k : String) (v : JVal) : JsonObj :=
  match fields with
  | [] => [(k, v)]
  | (k', v') :: rest => if k' = k then (k, v) :: rest else (k', v') :: setKey rest k v

/-- `d.get(k)` on a Python dict: the value of the first entry whose key is `k`. -/
def getKey (fields : JsonObj) (k : String) : Option JVal :=
  match fields with
  | [] => none
  | (k', v') :: rest => if k' = k then some v' else getKey rest k

/-! ## Validation (line 158 of `src/main.py`) -/

/-- The keys the validation check at line 158 skips:
`["allergens", "vitamin_minerals", "source_url", "error"]`. -/
def excluded_keys : List String := ["allergens", "vitamin_minerals", "source_url", "error"]

/-- One conjunct of the generator at line 158: the entry's key is not
excluded, and its value `v` satisfies `v is not None and v != "Unknown"`.
Note that the sentinel compared against is the fixed string `"Unknown"`,
whatever the request's language was. -/
def substantiveEntry (kv : String × JVal) : Bool :=
  !(excluded_keys.contains kv.1) &&
    (match kv.2 with
     | JVal.null => false
     | JVal.str s => !(s == "Unknown")
     | _ => true)

/-- Line 158: `any(v is not None and v != "Unknown" for k, v in
extracted.items() if k not in ["allergens", "vitamin_minerals",
"source_url", "error"])`. -/
def passesValidation (fields : JsonObj) : Bool :=
  fields.any substantiveEntry

/-! ## Query and instruction builder (lines 48-78 of `src/main.py`) -/

/-- `keywords_by_lang` (lines 48-51).  Only its keys are ever used (the
membership test at line 76); the keyword lists themselves are dead data. -/
def keywords_by_lang : List (String × List String) :=
  [("tr", ["besin değeri", "besin bilgisi", "besin içeriği", "karbonhidrat",
           "protein", "yağ", "kalori", "şeker"]),
   ("en", ["nutrition facts", "nutritional information", "carbohydrates",
           "protein", "fat", "calories", "sugar"])]

/-- Line 76: `selected_lang = language if language in keywords_by_lang else "tr"`. -/
def selected_lang (language : String) : String :=
  if (keywords_by_lang.map Prod.fst).contains language then language else "tr"

/-- Line 77: `search_query_templates[selected_lang].format(food_name=food_name)`.
The two templates (lines 53-56) are `"{food_name} besin değeri"` and
`"{food_name} nutrition facts"`; `str.format` with a single leading
placeholder inserts the food name verbatim in front of the fixed suffix
(braces in the substituted value are not re-interpreted by `str.format`). -/
def search_query_for (food_name language : String) : String :=
  if selected_lang language = "tr" then food_name ++ " besin değeri"
  else food_name ++ " nutrition facts"

/-- `instructions_by_lang["tr"]` (lines 60-65), reproduced verbatim. -/
def instruction_tr : String :=
  "Web sayfasındaki besin değerlerini analiz et ve tek bir JSON objesi olarak döndür.\n    Yanıt, verilen şemaya (calories, protein, sugar, carbohydrates, fat, serving_size, allergens, vitamin_minerals) tam olarak uymalı.\n    Eğer bir veri eksikse, o alanı 'Bilinmiyor' olarak doldur.\n    Sayfada birden fazla besin bilgisi varsa, en belirgin olanı (örneğin, 100g veya ana ürün) seç.\n    Metrik birimler (kcal, g, mg) kullan, bir boşlukla ayır (örneğin, '47 kcal').\n    Alerjen yoksa boş liste ([]) döndür, vitamin-mineral içeriğini ekle."

/-- `instructions_by_lang["en"]` (lines 67-72), reproduced verbatim. -/
def instruction_en : String :=
  "Analyze the nutrition facts on the webpage and return them as a single JSON object.\n    The response must exactly match the given schema (calories, protein, sugar, carbohydrates, fat, serving_size, allergens, vitamin_minerals).\n    If any data is missing, fill that field with 'Unknown'.\n    If there are multiple nutrition facts on the page, choose the most prominent one (e.g., 100g or main product).\n    Use metric units (kcal, g, mg) with a space (e.g., '47 kcal').\n    Return an empty list ([]) for allergens if none, and include vitamin-mineral content if available."

/-- Line 78: `instruction = instructions_by_lang[selected_lang]`. -/
def instruction_for (language : String) : String :=
  if selected_lang language = "tr" then instruction_tr else instruction_en

/-! ## URL parsing and the candidate filter (lines 111-128 of `src/main.py`) -/

/-- A character of `urllib.parse.scheme_chars`: ASCII letters, digits, `+`,
`-` and `.`. -/
def isSchemeChar (c : Char) : Bool :=
  c.isAlphanum || c == '+' || c == '-' || c == '.'

/-- Split a character list at its first `':'`: `some (before, after)`, or
`none` when it has no colon (this is `url.find(':')` in `urlsplit`). -/
def splitAtColon : List Char → Option (List Char × List Char)
  | [] => none
  | c :: rest =>
    if c = ':' then some ([], rest)
    else
      match splitAtColon rest with
      | none => none
      | some (pre, post) => some (c :: pre, post)

/-- The scheme-stripping step of `urllib.parse.urlsplit`: when the text up to
the first colon is a well-formed scheme (the colon is not first, the first
character is an ASCII letter, the rest are scheme characters), everything
after the colon; otherwise the whole input. -/
def afterSchemeChars (cs : List Char) : List Char :=
  match splitAtColon cs with
  | none => cs
  | some ([], _) => cs
  | some (c :: pre, post) =>
    if c.isAlpha && pre.all isSchemeChar then post else cs

/-- The characters `urlsplit` deletes from a URL before parsing it
(`_UNSAFE_URL_BYTES_TO_REMOVE`: tab, carriage return, line feed). -/
def cleanUrlChars (url : String) : List Char :=
  url.toList.filter (fun c => !(c == '\t' || c == '\r' || c == '\n'))

/-- `urllib.parse.urlparse(url).netloc`, fallibly: the netloc is present
only when the input (after an optional scheme) starts with `//` and extends
to the next `/`, `?` or `#`; `none` models the `ValueError("Invalid IPv6
URL")` that `urlsplit` raises when the netloc contains `[` without `]` or
`]` without `[`.  The remaining ways `urlparse` can raise — the bracketed
host validation of newer CPython and the NFKC check, both of which need a
bracket or a non-ASCII character in the netloc — are not modelled; the
theorems restrict themselves to `asciiNoBrackets` URLs, on which `urlparse`
cannot raise at all. -/
def urlNetloc? (url : String) : Option String :=
  match afterSchemeChars (cleanUrlChars url) with
  | '/' :: '/' :: tail =>
    let netloc := tail.takeWhile (fun c => !(c == '/' || c == '?' || c == '#'))
    if (netloc.contains '[') != (netloc.contains ']') then none
    else some (String.mk netloc)
  | _ => some ""

/-- ASCII case mapping (A-Z to a-z), agreeing with Python's `str.lower` on
ASCII strings.  Full Unicode lowering (e.g. U+212A KELVIN SIGN lowering to
`k`) is not modelled: the theorems about the filter restrict themselves to
`asciiNoBrackets` URLs, on which the two lowerings coincide. -/
def lowerString (s : String) : String :=
  String.mk (s.toList.map Char.toLower)

/-- The embedding's fidelity domain for one URL: every character is ASCII
and no square bracket occurs.  On such URLs the model provably agrees with
CPython: `urlparse` cannot raise (the bracket checks need a bracket, the
NFKC check returns early on an ASCII netloc), and ASCII lowercasing agrees
with `str.lower`.  The filter theorems carry this as a hypothesis so that
they assert nothing about URLs on which the embedding and CPython could
differ (e.g. a matched-bracket netloc, whose validation is
CPython-version-dependent, or a Kelvin-sign domain, which Python lowers to
a blocked one). -/
def asciiNoBrackets (url : String) : Bool :=
  url.toList.all (fun c => c.toNat < 128 && !(c == '[' || c == ']'))

/-- Python's substring test `sub in hay` on character lists. -/
def isInfixList (needle : List Char) : List Char → Bool
  | [] => needle.isEmpty
  | c :: rest => needle.isPrefixOf (c :: rest) || isInfixList needle rest

/-- Python's substring test `sub in hay` on strings. -/
def containsSub (hay sub : String) : Bool :=
  isInfixList sub.toList hay.toList

/-- Python's `s.endswith(suffix)`. -/
def strEndsWith (s suffix : String) : Bool :=
  suffix.toList.isSuffixOf s.toList

/-- Line 111: `blocked_domains`. -/
def blocked_domains : List String :=
  ["google.com", "gstatic.com", "youtube.com", "pinterest.com", "amazon.com",
   "facebook.com", "instagram.com", "twitter.com"]

/-- The image-extension tuple of line 119. -/
def image_exts : List String :=
  [".png", ".jpg", ".jpeg", ".gif", ".webp", ".svg", ".bmp"]

/-- Line 117: `any(blocked in domain for blocked in blocked_domains)`,
applied to the already-lowercased `domain` of line 116. -/
def is_blocked (domain : String) : Bool :=
  blocked_domains.any (fun blocked => containsSub domain blocked)

/-- Line 119: `url.lower().endswith(('.png', '.jpg', '.jpeg', '.gif',
'.webp', '.svg', '.bmp'))` — note: the whole URL, not its path component. -/
def is_image (url : String) : Bool :=
  image_exts.any (fun ext => strEndsWith (lowerString url) ext)

/-- The `try:` body of lines 115-121 for one URL: `none` models `urlparse`
raising (the `except` of lines 122-123 then skips the URL); `some b`
whether both checks pass and the URL is appended. -/
def keepUrl? (url : String) : Option Bool :=
  match urlNetloc? url with
  | none => none
  | some netloc =>
    let domain := lowerString netloc
    some (!is_blocked domain && !is_image url)

/-- The filtering loop of lines 113-123: keep, in order, the URLs whose
parse succeeds and that are neither blocked nor images; a URL on which the
modelled `urlparse` raises is skipped by the `except` of lines 122-123. -/
def filterUrls : List String → List String
  | [] => []
  | url :: rest =>
    match keepUrl? url with
    | some true => url :: filterUrls rest
    | _ => filterUrls rest

/-! ## The acquisition loop (lines 131-191 of `src/main.py`) -/

/-- What one call of the extraction collaborator
(`crawler.arun` + `json.loads(results.extracted_content)`) yields for a URL:
a decoded JSON payload together with `results.url` (the URL the crawler
reports for the fetched page), a `json.JSONDecodeError` (line 166), or any
other exception — timeout, navigation error, provider error (line 169). -/
inductive ExtractResult where
  | payload (content : JVal) (pageUrl : String)
  | jsonDecodeError
  | crawlError

/-- The per-candidate body of lines 140-155, up to the validation check:
`none` when the candidate is skipped by a `continue` (decode error, crawl
error, the `IndexError` that `extracted = extracted[0]` raises on an empty
list — caught by the generic `except` —, or a payload that is not a
non-empty dict); otherwise the parsed record with `source_url` set to the
crawler-reported page URL (line 149). -/
def processCandidate : ExtractResult → Option JsonObj
  | ExtractResult.jsonDecodeError => none
  | ExtractResult.crawlError => none
  | ExtractResult.payload content pageUrl =>
    let extracted : Option JVal :=
      match content with
      | JVal.arr [] => none
      | JVal.arr (x :: _) => some x
      | j => some j
    match extracted with
    | some (JVal.obj fields) =>
      if fields.isEmpty then none
      else some (setKey fields "source_url" (JVal.str pageUrl))
    | _ => none

/-- The `for target_url in filtered_urls[:3]` loop of lines 134-172, with
state `(extracted_data, last_successful_crawl_result)` (lines 131-132) and,
as ghost instrumentation, the list of URLs passed to the extraction
collaborator.  A validated record sets `extracted_data` and `break`s
(line 161); a parsed record that fails validation only updates
`last_successful_crawl_result`; a failed candidate changes no state. -/
def crawlLoop (extractFn : String → ExtractResult) :
    List String → Option JsonObj → Option JsonObj × Option JsonObj × List String
  | [], last_successful_crawl_result => (none, last_successful_crawl_result, [])
  | target_url :: rest, last_successful_crawl_result =>
    match processCandidate (extractFn target_url) with
    | none =>
      let r := crawlLoop extractFn rest last_successful_crawl_result
      (r.1, r.2.1, target_url :: r.2.2)
    | some extracted =>
      if passesValidation extracted then (some extracted, some extracted, [target_url])
      else
        let r := crawlLoop extractFn rest (some extracted)
        (r.1, r.2.1, target_url :: r.2.2)

/-- The outcome `crawl_nutrition` delivers to the HTTP layer: a returned
record, or a raised `HTTPException(status_code, detail)`. -/
inductive CrawlOutcome where
  | ok (record : JsonObj)
  | err (status : Nat) (detail : String)

/-- Lines 174-186, `--- Determine final result ---`: from the loop's final
state `(extracted_data, last_successful_crawl_result, attempted)`, return the
validated record if one was found, else the last successfully parsed record,
else raise a 404. -/
def finalResult (r : Option JsonObj × Option JsonObj × List String) :
    CrawlOutcome × List String :=
  match r.1 with
  | some extracted_data => (CrawlOutcome.ok extracted_data, r.2.2)
  | none =>
    match r.2.1 with
    | some last => (CrawlOutcome.ok last, r.2.2)
    | none =>
      (CrawlOutcome.err 404
        "Could not extract nutrition data from any source after trying multiple pages.",
       r.2.2)

/-- The body of the outer `try:` of `crawl_nutrition` (lines 47-186): build
the query, search, filter, run the candidate loop, and pick the final
result (validated first, else last parsed, else a 404), paired with the
ghost list of URLs passed to the extraction collaborator. -/
def crawlTryBody (searchFn : String → List String) (extractFn : String → ExtractResult)
    (food_name : String) (language : String) : CrawlOutcome × List String :=
  let search_query := search_query_for food_name language
  let urls_raw := searchFn search_query
  let filtered_urls := filterUrls urls_raw
  if filtered_urls.isEmpty then
    (CrawlOutcome.err 404 "No suitable web pages found from search results.", [])
  else
    finalResult (crawlLoop extractFn (filtered_urls.take 3) none)

/-- `crawl_nutrition` (lines 46-191).  `fastapi.HTTPException` subclasses
`Exception`, so the blanket `except Exception as e:` at line 188 catches
the two `HTTPException(404, ...)`s raised inside the `try:` as well, and
re-raises them as `HTTPException(500, str(e))`; Starlette's
`HTTPException.__str__` renders as `f"{status_code}: {detail}"`. -/
def crawl_nutrition (searchFn : String → List String) (extractFn : String → ExtractResult)
    (food_name : String) (language : String) : CrawlOutcome × List String :=
  let r := crawlTryBody searchFn extractFn food_name language
  match r.1 with
  | CrawlOutcome.ok record => (CrawlOutcome.ok record, r.2)
  | CrawlOutcome.err status detail =>
    (CrawlOutcome.err 500 (toString status ++ ": " ++ detail), r.2)

/-- The `/nutrition/{food_name}` handler (lines 193-203): `crawl_nutrition`'s
result passes through (`except HTTPException: raise`); the handler's own
`except Exception` arm is unreachable, `crawl_nutrition` only returns or
raises `HTTPException`s. -/
def get_nutrition (searchFn : String → List String) (extractFn : String → ExtractResult)
    (food_name : String) (language : String) : CrawlOutcome :=
  (crawl_nutrition searchFn extractFn food_name language).1

/-- The candidate URLs the loop iterates: the filtered list, truncated to the
first 3 (line 134). -/
def candidate_urls (searchFn : String → List String)
    (food_name : String) (language : String) : List String :=
  (filterUrls (searchFn (search_query_for food_name language))).take 3

/-- The spec-side "most recently successfully-parsed record": fold over the
candidates, keeping the latest parsed record. -/
def lastParsedFold (extractFn : String → ExtractResult)
    (init : Option JsonObj) (cands : List String) : Option JsonObj :=
  cands.foldl
    (fun acc u =>
      match processCandidate (extractFn u) with
      | some r => some r
      | none => acc)
    init

/-! ## Helper lemmas -/

theorem lastParsedFold_nil (f : String → ExtractResult) (init : Option JsonObj) :
    lastParsedFold f init [] = init := rfl

theorem filterUrls_cons_keep (v : String) (rest : List String)
    (h : keepUrl? v = some true) :
    filterUrls (v :: rest) = v :: filterUrls rest := by
  simp only [filterUrls, h]

theorem filterUrls_cons_skip (v : String) (rest : List String)
    (h : keepUrl? v ≠ some true) :
    filterUrls (v :: rest) = filterUrls rest := by
  cases hk : keepUrl? v with
  | none => simp only [filterUrls, hk]
  | some b =>
    cases b with
    | false => simp only [filterUrls, hk]
    | true => exact absurd hk h

theorem mem_filterUrls (u : String) (l : List String) :
    u ∈ filterUrls l ↔ u ∈ l ∧ keepUrl? u = some true := by
  induction l with
  | nil => simp [filterUrls]
  | cons v rest ih =>
    by_cases hk : keepUrl? v = some true
    · rw [filterUrls_cons_keep v rest hk]
      constructor
      · intro hm
        rcases List.mem_cons.mp hm with rfl | hm
        · exact ⟨List.mem_cons_self u rest, hk⟩
        · obtain ⟨h1, h2⟩ := ih.mp hm
          exact ⟨List.mem_cons_of_mem v h1, h2⟩
      · rintro ⟨hm, hku⟩
        rcases List.mem_cons.mp hm with rfl | hm
        · exact List.mem_cons_self u _
        · exact List.mem_cons_of_mem v (ih.mpr ⟨hm, hku⟩)
    · rw [filterUrls_cons_skip v rest hk]
      constructor
      · intro hm
        obtain ⟨h1, h2⟩ := ih.mp hm
        exact ⟨List.mem_cons_of_mem v h1, h2⟩
      · rintro ⟨hm, hku⟩
        rcases List.mem_cons.mp hm with rfl | hm
        · exact absurd hku hk
        · exact ih.mpr ⟨hm, hku⟩

theorem filterUrls_sublist (l : List String) : List.Sublist (filterUrls l) l := by
  induction l with
  | nil => simp [filterUrls]
  | cons v rest ih =>
    by_cases hk : keepUrl? v = some true
    · rw [filterUrls_cons_keep v rest hk]
      exact List.Sublist.cons₂ v ih
    · rw [filterUrls_cons_skip v rest hk]
      exact List.Sublist.cons v ih

theorem keepUrl_iff (u : String) :
    keepUrl? u = some true ↔
    ∃ netloc, urlNetloc? u = some netloc ∧
      is_blocked (lowerString netloc) = false ∧ is_image u = false := by
  cases hn : urlNetloc? u with
  | none => simp [keepUrl?, hn]
  | some netloc => simp [keepUrl?, hn]

theorem crawlLoop_atts_subset (f : String → ExtractResult) (cands : List String)
    (last : Option JsonObj) :
    ∀ u ∈ (crawlLoop f cands last).2.2, u ∈ cands := by
  induction cands generalizing last with
  | nil => intro u hu; simp [crawlLoop] at hu
  | cons v rest ih =>
    intro u hu
    cases hpc : processCandidate (f v) with
    | none =>
      simp only [crawlLoop, hpc] at hu
      rcases List.mem_cons.mp hu with h | h
      · exact h ▸ List.mem_cons_self v rest
      · exact List.mem_cons_of_mem v (ih last u h)
    | some r =>
      by_cases hval : passesValidation r = true
      · simp only [crawlLoop, hpc, hval, if_pos] at hu
        simp at hu
        exact hu ▸ List.mem_cons_self v rest
      · simp only [crawlLoop, hpc, hval, Bool.false_eq_true, if_neg, not_false_iff] at hu
        rcases List.mem_cons.mp hu with h | h
        · exact h ▸ List.mem_cons_self v rest
        · exact List.mem_cons_of_mem v (ih (some r) u h)

theorem crawlLoop_atts_length (f : String → ExtractResult) (cands : List String)
    (last : Option JsonObj) :
    (crawlLoop f cands last).2.2.length ≤ cands.length := by
  induction cands generalizing last with
  | nil => simp [crawlLoop]
  | cons v rest ih =>
    cases hpc : processCandidate (f v) with
    | none =>
      simp only [crawlLoop, hpc, List.length_cons]
      exact Nat.succ_le_succ (ih last)
    | some r =>
      by_cases hval : passesValidation r = true
      · simp [crawlLoop, hpc, hval]
      · simp only [crawlLoop, hpc, hval, if_neg, List.length_cons, Bool.false_eq_true,
          not_false_iff]
        exact Nat.succ_le_succ (ih (some r))

theorem crawlLoop_record_origin (f : String → ExtractResult) (cands : List String)
    (last : Option JsonObj) (r : JsonObj)
    (h : (crawlLoop f cands last).1 = some r ∨ (crawlLoop f cands last).2.1 = some r) :
    last = some r ∨ ∃ u ∈ (crawlLoop f cands last).2.2, processCandidate (f u) = some r := by
  induction cands generalizing last with
  | nil =>
    simp only [crawlLoop] at h ⊢
    rcases h with h | h
    · exact absurd h (by simp)
    · exact Or.inl h
  | cons v rest ih =>
    cases hpc : processCandidate (f v) with
    | none =>
      simp only [crawlLoop, hpc] at h ⊢
      rcases ih last h with hl | ⟨u, hu, hpu⟩
      · exact Or.inl hl
      · exact Or.inr ⟨u, List.mem_cons_of_mem v hu, hpu⟩
    | some r' =>
      by_cases hval : passesValidation r' = true
      · simp only [crawlLoop, hpc, hval, if_pos] at h ⊢
        have : r' = r := by
          rcases h with h | h
          · exact Option.some.inj h
          · exact Option.some.inj h
        exact Or.inr ⟨v, by simp, this ▸ hpc⟩
      · simp only [crawlLoop, hpc, hval, Bool.false_eq_true, if_neg, not_false_iff] at h ⊢
        rcases ih (some r') h with hl | ⟨u, hu, hpu⟩
        · exact Or.inr ⟨v, by simp, hl ▸ hpc⟩
        · exact Or.inr ⟨u, List.mem_cons_of_mem v hu, hpu⟩

theorem processCandidate_some_shape (res : ExtractResult) (r : JsonObj)
    (h : processCandidate res = some r) :
    ∃ content pageUrl fields, res = ExtractResult.payload content pageUrl ∧
      fields ≠ [] ∧ r = setKey fields "source_url" (JVal.str pageUrl) := by
  cases res with
  | jsonDecodeError => exact absurd h (by simp [processCandidate])
  | crawlError => exact absurd h (by simp [processCandidate])
  | payload content pageUrl =>
    cases content with
    | null => exact absurd h (by simp [processCandidate])
    | bool b => exact absurd h (by simp [processCandidate])
    | num n => exact absurd h (by simp [processCandidate])
    | str s => exact absurd h (by simp [processCandidate])
    | arr items =>
      cases items with
      | nil => exact absurd h (by simp [processCandidate])
      | cons x xs =>
        cases x with
        | obj fields =>
          by_cases hne : fields.isEmpty = true
          · exact absurd h (by simp [processCandidate, hne])
          · refine ⟨JVal.arr (JVal.obj fields :: xs), pageUrl, fields, rfl,
              by simpa using hne, ?_⟩
            simp only [processCandidate, hne, Bool.false_eq_true, if_neg,
              not_false_iff] at h
            exact (Option.some.inj h).symm
        | null => exact absurd h (by simp [processCandidate])
        | bool b => exact absurd h (by simp [processCandidate])
        | num n => exact absurd h (by simp [processCandidate])
        | str s => exact absurd h (by simp [processCandidate])
        | arr ys => exact absurd h (by simp [processCandidate])
    | obj fields =>
      by_cases hne : fields.isEmpty = true
      · exact absurd h (by simp [processCandidate, hne])
      · refine ⟨JVal.obj fields, pageUrl, fields, rfl, by simpa using hne, ?_⟩
        simp only [processCandidate, hne, Bool.false_eq_true, if_neg,
          not_false_iff] at h
        exact (Option.some.inj h).symm

theorem getKey_setKey (fields : JsonObj) (k : String) (v : JVal) :
    getKey (setKey fields k v) k = some v := by
  induction fields with
  | nil => simp [setKey, getKey]
  | cons kv rest ih =>
    obtain ⟨k', v'⟩ := kv
    by_cases hk : k' = k
    · simp [setKey, getKey, hk]
    · simp [setKey, getKey, hk, ih]

theorem substantiveEntry_source_url (v : JVal) :
    substantiveEntry ("source_url", v) = false := by
  have hc : excluded_keys.contains "source_url" = true := rfl
  simp only [substantiveEntry, hc, Bool.not_true, Bool.false_and]

theorem passesValidation_setKey_source_url (fields : JsonObj) (v : JVal) :
    passesValidation (setKey fields "source_url" v) = passesValidation fields := by
  induction fields with
  | nil =>
    simp [setKey, passesValidation, substantiveEntry_source_url]
  | cons kv rest ih =>
    obtain ⟨k', v'⟩ := kv
    by_cases hkk : k' = "source_url"
    · subst hkk
      simp [setKey, passesValidation, List.any_cons, substantiveEntry_source_url]
    · simp only [setKey, hkk, if_neg, not_false_iff, passesValidation, List.any_cons] at ih ⊢
      rw [ih]

theorem finalResult_atts (r : Option JsonObj × Option JsonObj × List String) :
    (finalResult r).2 = r.2.2 := by
  rcases r with ⟨ed, last, atts⟩
  cases ed with
  | some d => rfl
  | none => cases last with
    | some l => rfl
    | none => rfl

theorem finalResult_ok (r : Option JsonObj × Option JsonObj × List String)
    (rec : JsonObj) (atts : List String)
    (h : finalResult r = (CrawlOutcome.ok rec, atts)) :
    r.1 = some rec ∨ (r.1 = none ∧ r.2.1 = some rec) := by
  rcases r with ⟨ed, last, atts'⟩
  cases ed with
  | some d =>
    have : d = rec := by
      have := congrArg Prod.fst h
      simpa [finalResult] using this
    exact Or.inl (by rw [this])
  | none =>
    cases last with
    | some l =>
      have : l = rec := by
        have := congrArg Prod.fst h
        simpa [finalResult] using this
      exact Or.inr ⟨rfl, by rw [this]⟩
    | none =>
      have := congrArg Prod.fst h
      simp [finalResult] at this

theorem crawlTryBody_nonempty (searchFn : String → List String)
    (extractFn : String → ExtractResult) (food_name language : String)
    (hne : filterUrls (searchFn (search_query_for food_name language)) ≠ []) :
    crawlTryBody searchFn extractFn food_name language
      = finalResult (crawlLoop extractFn (candidate_urls searchFn food_name language) none) := by
  have h' : (filterUrls (searchFn (search_query_for food_name language))).isEmpty = false := by
    cases hl : filterUrls (searchFn (search_query_for food_name language)) with
    | nil => exact absurd hl hne
    | cons a l => rfl
  simp only [crawlTryBody, h', Bool.false_eq_true, if_neg, not_false_iff]
  rfl

theorem crawl_nutrition_atts (searchFn : String → List String)
    (extractFn : String → ExtractResult) (food_name language : String) :
    (crawl_nutrition searchFn extractFn food_name language).2
      = (crawlTryBody searchFn extractFn food_name language).2 := by
  unfold crawl_nutrition
  cases h : (crawlTryBody searchFn extractFn food_name language).1 with
  | ok rec => simp [h]
  | err status detail => simp [h]

theorem crawl_nutrition_ok (searchFn : String → List String)
    (extractFn : String → ExtractResult) (food_name language : String) (rec : JsonObj)
    (h : (crawl_nutrition searchFn extractFn food_name language).1 = CrawlOutcome.ok rec) :
    (crawlTryBody searchFn extractFn food_name language).1 = CrawlOutcome.ok rec := by
  unfold crawl_nutrition at h
  cases h1 : (crawlTryBody searchFn extractFn food_name language).1 with
  | ok r => simp only [h1] at h; exact h ▸ rfl
  | err status detail => simp only [h1] at h; exact absurd h (by simp)

/-! ## Concrete collaborator stubs for closed runs -/

/-- A record whose every substantive field is the Turkish missing-value
sentinel `"Bilinmiyor"` (what the Turkish instruction tells the extraction
collaborator to produce for a page that shows no data). -/
def bilinmiyorRecord : JsonObj :=
  [("calories", JVal.str "Bilinmiyor"), ("protein", JVal.str "Bilinmiyor"),
   ("sugar", JVal.str "Bilinmiyor"), ("carbohydrates", JVal.str "Bilinmiyor"),
   ("fat", JVal.str "Bilinmiyor"), ("serving_size", JVal.str "Bilinmiyor"),
   ("allergens", JVal.arr []), ("vitamin_minerals", JVal.obj [])]

/-- A record whose every substantive field is the English missing-value
sentinel `"Unknown"`. -/
def unknownRecord : JsonObj :=
  [("calories", JVal.str "Unknown"), ("protein", JVal.str "Unknown"),
   ("sugar", JVal.str "Unknown"), ("carbohydrates", JVal.str "Unknown"),
   ("fat", JVal.str "Unknown"), ("serving_size", JVal.str "Unknown"),
   ("allergens", JVal.arr []), ("vitamin_minerals", JVal.obj [])]

/-- A record with one substantive value (`calories`) and all other fields
the English sentinel: the spec's acceptance-on-partial-data scenario. -/
def caloriesRecord : JsonObj :=
  [("calories", JVal.str "95 kcal"), ("protein", JVal.str "Unknown"),
   ("sugar", JVal.str "Unknown"), ("carbohydrates", JVal.str "Unknown"),
   ("fat", JVal.str "Unknown"), ("serving_size", JVal.str "Unknown"),
   ("allergens", JVal.arr []), ("vitamin_minerals", JVal.obj [])]

def urlA : String := "https://a.example.org/apple-nutrition"

def urlB : String := "https://b.example.org/apple-nutrition"

def urlC : String := "https://c.example.org/apple-nutrition"

/-- Search stub returning one content URL. -/
def searchStubOne : String → List String := fun _ => [urlA]

/-- Search stub returning three content URLs. -/
def searchStubThree : String → List String := fun _ => [urlA, urlB, urlC]

/-- Search stub returning only a deny-listed URL (the spec's own example). -/
def searchStubAmazon : String → List String :=
  fun _ => ["https://www.amazon.com/apple-nutrition"]

/-- Extraction stub that fails (timeout / navigation / provider error) on
every URL. -/
def extractStubFail : String → ExtractResult := fun _ => ExtractResult.crawlError

/-- Extraction stub returning the all-`"Bilinmiyor"` record for every URL,
reporting the fetched URL itself as the page URL. -/
def extractStubBilinmiyor : String → ExtractResult :=
  fun url => ExtractResult.payload (JVal.obj bilinmiyorRecord) url

/-- Extraction stub returning the all-`"Unknown"` record for every URL,
reporting the fetched URL itself as the page URL. -/
def extractStubUnknown : String → ExtractResult :=
  fun url => ExtractResult.payload (JVal.obj unknownRecord) url

/-- Extraction stub returning the partially filled `caloriesRecord`. -/
def extractStubCalories : String → ExtractResult :=
  fun url => ExtractResult.payload (JVal.obj caloriesRecord) url

/-! ## Claim theorems -/

/-- C1 (code bug in validation): the claim — matching the spec and the
Turkish instruction the code itself sends to the extraction collaborator —
requires a record all of whose substantive fields equal the request
locale's missing-value sentinel ("Bilinmiyor" for Turkish) to fail
validation.  The code's validation check (line 158) compares only against
the English sentinel "Unknown", so on a Turkish request the all-"Bilinmiyor"
record passes validation, is stored as `extracted_data`, and is returned as
the validated result. -/
theorem C1_trSentinel_record_passes_validation :
    passesValidation (setKey bilinmiyorRecord "source_url" (JVal.str urlA)) = true ∧
    (crawlLoop extractStubBilinmiyor [urlA] none).1
      = some (setKey bilinmiyorRecord "source_url" (JVal.str urlA)) ∧
    get_nutrition searchStubOne extractStubBilinmiyor "elma" "tr"
      = CrawlOutcome.ok (setKey bilinmiyorRecord "source_url" (JVal.str urlA)) :=
  ⟨rfl, rfl, rfl⟩

/-- C4: if filtering empties the candidate list, the `try:` body raises the
"no suitable pages" 404 at line 128 before the crawler context is entered:
the outcome is that failure, and the list of URLs passed to the extraction
collaborator is empty. -/
theorem C4_empty_filter_skips_extraction (searchFn : String → List String)
    (extractFn : String → ExtractResult) (food_name language : String)
    (h : filterUrls (searchFn (search_query_for food_name language)) = []) :
    crawlTryBody searchFn extractFn food_name language
      = (CrawlOutcome.err 404 "No suitable web pages found from search results.", []) := by
  simp only [crawlTryBody, h, List.isEmpty_nil, if_pos]

/-- Witness for C4 at the spec's own example: a search returning only
`https://www.amazon.com/apple-nutrition` filters to the empty list. -/
theorem C4_witness :
    crawlTryBody searchStubAmazon extractStubFail "apple" "en"
      = (CrawlOutcome.err 404 "No suitable web pages found from search results.", []) :=
  C4_empty_filter_skips_extraction searchStubAmazon extractStubFail "apple" "en" rfl

/-- C7: the builder is total, and every language string outside the
supported set {"tr", "en"} (the keys of `keywords_by_lang`) yields exactly
the default locale's search query and extraction instruction. -/
theorem C7_unsupported_language_defaults (food_name language : String)
    (h : language ∉ ["tr", "en"]) :
    search_query_for food_name language = search_query_for food_name "tr" ∧
    instruction_for language = instruction_for "tr" := by
  have h1 : language ≠ "tr" := fun he => h (by simp [he])
  have h2 : language ≠ "en" := fun he => h (by simp [he])
  have hsel : selected_lang language = "tr" := by
    simp [selected_lang, keywords_by_lang, h1, h2]
  have hsel' : selected_lang "tr" = "tr" := rfl
  refine ⟨?_, ?_⟩
  · unfold search_query_for
    rw [hsel, hsel']
  · unfold instruction_for
    rw [hsel, hsel']

/-- Witness for C7 at the unsupported language "de". -/
theorem C7_witness :
    search_query_for "apple" "de" = search_query_for "apple" "tr" ∧
    instruction_for "de" = instruction_for "tr" :=
  C7_unsupported_language_defaults "apple" "de" (by decide)

/-- C8: `crawl_nutrition` is a pure function of the food name, the language
and the two collaborator stubs, so two runs of the same request against the
same deterministic stubs give identical outcomes. -/
theorem C8_deterministic (s₁ s₂ : String → List String)
    (e₁ e₂ : String → ExtractResult) (food₁ food₂ language₁ language₂ : String)
    (hs : s₁ = s₂) (he : e₁ = e₂) (hf : food₁ = food₂) (hl : language₁ = language₂) :
    crawl_nutrition s₁ e₁ food₁ language₁ = crawl_nutrition s₂ e₂ food₂ language₂ := by
  subst hs; subst he; subst hf; subst hl; rfl

/-- Witness for C8 on a concrete repeated request. -/
theorem C8_witness :
    crawl_nutrition searchStubOne extractStubCalories "apple" "en"
      = crawl_nutrition searchStubOne extractStubCalories "apple" "en" :=
  C8_deterministic searchStubOne searchStubOne extractStubCalories extractStubCalories
    "apple" "apple" "en" "en" rfl rfl rfl rfl

theorem crawlTryBody_atts_bound (searchFn : String → List String)
    (extractFn : String → ExtractResult) (food_name language : String) :
    (crawlTryBody searchFn extractFn food_name language).2.length ≤ 3 ∧
    ∀ u ∈ (crawlTryBody searchFn extractFn food_name language).2,
      u ∈ filterUrls (searchFn (search_query_for food_name language)) := by
  by_cases hemp : filterUrls (searchFn (search_query_for food_name language)) = []
  · simp [crawlTryBody, hemp]
  · rw [crawlTryBody_nonempty searchFn extractFn food_name language hemp, finalResult_atts]
    constructor
    · calc (crawlLoop extractFn (candidate_urls searchFn food_name language) none).2.2.length
          ≤ (candidate_urls searchFn food_name language).length :=
            crawlLoop_atts_length extractFn _ none
        _ ≤ 3 := List.length_take_le 3 _
    · intro u hu
      exact List.take_subset 3 _
        (crawlLoop_atts_subset extractFn (candidate_urls searchFn food_name language) none u hu)

/-- Modelled from the spec: the path component of a URL as `urllib.parse`
computes it (the text after the netloc, cut at the first `?` or `#`).  The
code itself never computes a path — the spec's claim C5 speaks of "URLs
whose path ends in a known image extension", and this definition exists
only to state that claim. -/
def urlPathSpec (url : String) : String :=
  let rest := afterSchemeChars (cleanUrlChars url)
  let afterNetloc :=
    match rest with
    | '/' :: '/' :: tail => tail.dropWhile (fun c => !(c == '/' || c == '?' || c == '#'))
    | other => other
  String.mk (afterNetloc.takeWhile (fun c => !(c == '?' || c == '#')))

/-- Modelled from the spec: the HOST of a URL, as `urlparse(url).hostname`
computes it — the netloc without the userinfo (the text after the last `@`)
and without the port (cut at the first `:`), lowercased.  The code never
computes a host (line 116 matches against the full netloc); claim C5 speaks
of the "host", and this definition exists only to state that claim.  A URL
whose parse fails contributes the empty host. -/
def urlHostSpec (url : String) : String :=
  match urlNetloc? url with
  | none => ""
  | some netloc =>
    let afterUserinfo := (netloc.toList.reverse.takeWhile (fun c => !(c == '@'))).reverse
    lowerString (String.mk (afterUserinfo.takeWhile (fun c => !(c == ':'))))

/-- The removal predicate exactly as claim C5 states it: the HOST contains a
deny-listed substring, or the URL's PATH (lowercased) ends in a known image
extension. -/
def spec_removes (url : String) : Bool :=
  blocked_domains.any (fun blocked => containsSub (urlHostSpec url) blocked) ||
  image_exts.any (fun ext => strEndsWith (lowerString (urlPathSpec url)) ext)

/-- Counterexample to C5 as stated, in both directions of its "removes
exactly" clause.  `https://example.com/a.png?x=1` has path `/a.png`, ending
in the image extension `.png`, so the claim removes it; the code tests
`url.lower().endswith(...)` on the whole URL — which ends in `1` — and
keeps it.  `https://amazon.com@example.org/x` has host `example.org` (no
denied substring) and a non-image path, so the claim keeps it; the code
matches the deny-list against the full netloc `amazon.com@example.org` —
userinfo included — and removes it. -/
theorem C5_counterexample :
    spec_removes "https://example.com/a.png?x=1" = true ∧
    filterUrls ["https://example.com/a.png?x=1"] = ["https://example.com/a.png?x=1"] ∧
    spec_removes "https://amazon.com@example.org/x" = false ∧
    filterUrls ["https://amazon.com@example.org/x"] = [] :=
  ⟨rfl, rfl, rfl, rfl⟩

/-- C5 (amended), stated over URLs in the embedding's fidelity domain
(`asciiNoBrackets`: all-ASCII, no square bracket — where `urlparse` cannot
raise and ASCII lowering agrees with `str.lower`): the filter removes
exactly those URLs whose parse fails or whose netloc (lowercased, userinfo
and port included — not the host) contains a deny-listed substring or whose
whole URL, lowercased, ends in a known image extension — not the path; the
survivors stay in the fidelity domain; the output preserves the input's
relative order (it is a sublist); at most 3 URLs are ever passed to the
extraction stage; and every URL passed to the extraction stage parsed, is
neither deny-listed nor an image URL, and lies in the fidelity domain. -/
theorem C5_filter_characterization (urls : List String) (searchFn : String → List String)
    (extractFn : String → ExtractResult) (food_name language : String)
    (hurls : ∀ u ∈ urls, asciiNoBrackets u = true)
    (hsearch : ∀ u ∈ searchFn (search_query_for food_name language),
      asciiNoBrackets u = true) :
    (∀ u, u ∈ filterUrls urls ↔ u ∈ urls ∧ ∃ netloc, urlNetloc? u = some netloc ∧
        is_blocked (lowerString netloc) = false ∧ is_image u = false) ∧
    (∀ u ∈ filterUrls urls, asciiNoBrackets u = true) ∧
    List.Sublist (filterUrls urls) urls ∧
    (crawl_nutrition searchFn extractFn food_name language).2.length ≤ 3 ∧
    (∀ u ∈ (crawl_nutrition searchFn extractFn food_name language).2,
      asciiNoBrackets u = true ∧
      ∃ netloc, urlNetloc? u = some netloc ∧
        is_blocked (lowerString netloc) = false ∧ is_image u = false) := by
  refine ⟨?_, ?_, filterUrls_sublist urls, ?_, ?_⟩
  · intro u
    rw [mem_filterUrls u urls, keepUrl_iff u]
  · intro u hu
    exact hurls u ((mem_filterUrls u urls).mp hu).1
  · rw [crawl_nutrition_atts]
    exact (crawlTryBody_atts_bound searchFn extractFn food_name language).1
  · intro u hu
    rw [crawl_nutrition_atts] at hu
    have hin := (crawlTryBody_atts_bound searchFn extractFn food_name language).2 u hu
    obtain ⟨hmem, hkeep⟩ := (mem_filterUrls u _).mp hin
    exact ⟨hsearch u hmem, (keepUrl_iff u).mp hkeep⟩

/-- Witness for C5 at concrete inputs: a two-URL candidate list (one
deny-listed, one clean) and the three-candidate pipeline stub, with both
fidelity hypotheses discharged by computation. -/
theorem C5_witness :
    (∀ u, u ∈ filterUrls ["https://www.amazon.com/apple-nutrition", urlA]
        ↔ u ∈ ["https://www.amazon.com/apple-nutrition", urlA] ∧
          ∃ netloc, urlNetloc? u = some netloc ∧
            is_blocked (lowerString netloc) = false ∧ is_image u = false) ∧
    (∀ u ∈ filterUrls ["https://www.amazon.com/apple-nutrition", urlA],
      asciiNoBrackets u = true) ∧
    List.Sublist (filterUrls ["https://www.amazon.com/apple-nutrition", urlA])
      ["https://www.amazon.com/apple-nutrition", urlA] ∧
    (crawl_nutrition searchStubThree extractStubUnknown "apple" "en").2.length ≤ 3 ∧
    (∀ u ∈ (crawl_nutrition searchStubThree extractStubUnknown "apple" "en").2,
      asciiNoBrackets u = true ∧
      ∃ netloc, urlNetloc? u = some netloc ∧
        is_blocked (lowerString netloc) = false ∧ is_image u = false) :=
  C5_filter_characterization ["https://www.amazon.com/apple-nutrition", urlA]
    searchStubThree extractStubUnknown "apple" "en" (by decide) (by decide)

theorem finalResult_fst_ok (r : Option JsonObj × Option JsonObj × List String)
    (rec : JsonObj) (h : (finalResult r).1 = CrawlOutcome.ok rec) :
    r.1 = some rec ∨ (r.1 = none ∧ r.2.1 = some rec) := by
  rcases r with ⟨ed, last, atts⟩
  cases ed with
  | some d =>
    left
    simp only [finalResult, CrawlOutcome.ok.injEq] at h
    rw [h]
  | none =>
    cases last with
    | some l =>
      right
      simp only [finalResult, CrawlOutcome.ok.injEq] at h
      exact ⟨rfl, by rw [h]⟩
    | none => simp [finalResult] at h

/-- C10: every record returned on the success path carries a `source_url`
key holding the crawler-reported URL of the page it came from (attached at
line 149, before the validation check of line 158 runs), and the validation
check is invariant under the `source_url` entry (the key is excluded). -/
theorem C10_source_url_attached (searchFn : String → List String)
    (extractFn : String → ExtractResult) (food_name language : String) (rec : JsonObj)
    (fields : JsonObj) (v : JVal)
    (h : (crawl_nutrition searchFn extractFn food_name language).1 = CrawlOutcome.ok rec) :
    (∃ u ∈ (crawl_nutrition searchFn extractFn food_name language).2,
      ∃ content pageUrl, extractFn u = ExtractResult.payload content pageUrl ∧
        getKey rec "source_url" = some (JVal.str pageUrl)) ∧
    passesValidation (setKey fields "source_url" v) = passesValidation fields := by
  refine ⟨?_, passesValidation_setKey_source_url fields v⟩
  have hbody := crawl_nutrition_ok searchFn extractFn food_name language rec h
  by_cases hemp : filterUrls (searchFn (search_query_for food_name language)) = []
  · have : crawlTryBody searchFn extractFn food_name language
        = (CrawlOutcome.err 404 "No suitable web pages found from search results.", []) := by
      simp only [crawlTryBody, hemp, List.isEmpty_nil, if_pos]
    rw [this] at hbody
    exact absurd hbody (by simp)
  · rw [crawlTryBody_nonempty searchFn extractFn food_name language hemp] at hbody
    have horig :
        none = some rec ∨
        ∃ u ∈ (crawlLoop extractFn (candidate_urls searchFn food_name language) none).2.2,
          processCandidate (extractFn u) = some rec := by
      rcases finalResult_fst_ok _ rec hbody with h1 | ⟨h1, h2⟩
      · exact crawlLoop_record_origin extractFn _ none rec (Or.inl h1)
      · exact crawlLoop_record_origin extractFn _ none rec (Or.inr h2)
    rcases horig with hl | ⟨u, hu, hpu⟩
    · exact absurd hl (by simp)
    · obtain ⟨content, pageUrl, fields', hres, _, hrec⟩ :=
        processCandidate_some_shape (extractFn u) rec hpu
      refine ⟨u, ?_, content, pageUrl, hres, ?_⟩
      · rw [crawl_nutrition_atts,
          crawlTryBody_nonempty searchFn extractFn food_name language hemp, finalResult_atts]
        exact hu
      · rw [hrec]
        exact getKey_setKey fields' "source_url" (JVal.str pageUrl)

/-- Witness for C10: a validated run whose returned record carries the
stub-reported page URL under `source_url`. -/
theorem C10_witness :
    (∃ u ∈ (crawl_nutrition searchStubOne extractStubCalories "apple" "en").2,
      ∃ content pageUrl, extractStubCalories u = ExtractResult.payload content pageUrl ∧
        getKey (setKey caloriesRecord "source_url" (JVal.str urlA)) "source_url"
          = some (JVal.str pageUrl)) ∧
    passesValidation (setKey caloriesRecord "source_url" JVal.null)
      = passesValidation caloriesRecord :=
  C10_source_url_attached searchStubOne extractStubCalories "apple" "en"
    (setKey caloriesRecord "source_url" (JVal.str urlA)) caloriesRecord JVal.null rfl

